import Mathlib

/-!
Verification of `fundamental_ratios.py` from joshuapjs/portfolio-stack.

The module holds six independent calculation functions (`ep_ratio`,
`pb_ratio`, `current_ratio`, `ro_equity`, `ro_assets`, `div_growth`).
Each fetches tabular fundamentals / price data for one security, computes a
fixed arithmetic formula, rounds the outcome and deposits it into a shared
string-keyed results store (the "concurrency manager"), returning the value
or `None`.

The embedding below models:
  * numbers as `ℚ` (Python's arithmetic on the fetched values, with explicit
    zero-denominator checks standing for `ZeroDivisionError`), except inside
    `div_growth`, whose geometric mean takes a real n-th root and is
    therefore modelled over `ℝ`;
  * a fundamentals table as its list of filing-date column labels (strings)
    plus rows indexed by `(line-item code, label)`;
  * the results store as an association list from key to the one-entry
    mapping the Python code stores under that key, written as the
    `(name, value)` pair;
  * exceptions with `Except`: a function returns its `Except` outcome
    together with the store as it stands when the function ends, so an
    escaping exception leaves the store component untouched.
-/

namespace PortfolioStack

/-- The Python exceptions relevant to these functions. `ZeroDivisionError`
is raised by `/` when the denominator is zero and is the only exception the
functions catch; `KeyError` / `IndexError` come from pandas lookups. -/
inductive PyErr where
  | keyError
  | indexError
  | zeroDivisionError
deriving DecidableEq

/-- A value stored under a ratio name: a rational result, the real-valued
result of the dividend-growth pipeline, or `pd.NA` (the missing marker). -/
inductive CellVal where
  | num : ℚ → CellVal
  | real : ℝ → CellVal
  | NA : CellVal

/-- The concurrency manager: a mapping from ratio name to the one-entry
mapping `{ratio name: value}` deposited there, modelled as an association
list whose stored value is the `(name, value)` pair. -/
abbrev Store := List (String × (String × CellVal))

def Store.empty : Store := []

/-- `mgr[k] = v` on a Python dict: the key now maps to `v`. -/
def Store.set (s : Store) (k : String) (v : String × CellVal) : Store :=
  (k, v) :: s.filter (fun p => p.1 != k)

/-- Reading a key of the store (`None` when the key was never written). -/
def Store.get (s : Store) (k : String) : Option (String × CellVal) :=
  (s.find? (fun p => p.1 == k)).map Prod.snd

/-- The deposit every function performs: under its ratio name, the one-entry
mapping from that same name to the value. -/
def deposit (mgr : Store) (key : String) (v : CellVal) : Store :=
  mgr.set key (key, v)

/-- Round half to even (Python's built-in `round` on a number with no
fractional digits requested). -/
def rhe (x : ℚ) : ℤ :=
  if x - ⌊x⌋ < 1 / 2 then ⌊x⌋
  else if 1 / 2 < x - ⌊x⌋ then ⌊x⌋ + 1
  else if ⌊x⌋ % 2 = 0 then ⌊x⌋ else ⌊x⌋ + 1

/-- Python `round(x, p)`: scale by `10^p`, round half to even, scale back. -/
def roundTo (p : ℕ) (x : ℚ) : ℚ := (rhe (x * 10 ^ p) : ℚ) / 10 ^ p

/-- Round half to even over the reals, for the dividend-growth result. -/
noncomputable def rheR (x : ℝ) : ℤ :=
  if x - ⌊x⌋ < 1 / 2 then ⌊x⌋
  else if 1 / 2 < x - ⌊x⌋ then ⌊x⌋ + 1
  else if ⌊x⌋ % 2 = 0 then ⌊x⌋ else ⌊x⌋ + 1

/-- Python `round(x, 3)` over the reals. -/
noncomputable def roundTo3R (x : ℝ) : ℝ := (rheR (x * 1000) : ℝ) / 1000

/-- A fundamentals table as `get_fundamentals` returns it: the filing-date
column labels (strings) and the rows, indexed by `(line-item code, label)`,
each row holding its cells as `(column, value)` pairs in column order. -/
structure Table where
  columns : List String
  rows : List ((ℕ × String) × List (String × ℚ))

/-- Looking a row up by its `(code, label)` index. -/
def rowLookup (rows : List ((ℕ × String) × List (String × ℚ)))
    (code : ℕ) (label : String) : Option (List (String × ℚ)) :=
  (rows.find? (fun r => r.1.1 == code && r.1.2 == label)).map Prod.snd

/-- `df.loc[(code, label)][0]`: the positionally first value of the row.
`KeyError` when the row is absent, `IndexError` when it has no cells. -/
def Table.rowFirst (t : Table) (code : ℕ) (label : String) : Except PyErr ℚ :=
  match rowLookup t.rows code label with
  | none => .error .keyError
  | some [] => .error .indexError
  | some (c :: _) => .ok c.2

/-- Reading a row's cells at the selected columns in order: `KeyError` when
a selected column has no cell. -/
def readCells (cells : List (String × ℚ)) : List String → Except PyErr (List ℚ)
  | [] => .ok []
  | c :: rest =>
    match cells.find? (fun p => p.1 == c) with
    | none => .error .keyError
    | some p =>
      match readCells cells rest with
      | .error e => .error e
      | .ok vs => .ok (p.2 :: vs)

/-- `df[cols].loc[(code, label)].to_list()`: `KeyError` when a selected
column is not a column of the frame or the row is absent; a selected column
listed twice is kept twice (pandas duplicates the column). -/
def Table.selRow (t : Table) (cols : List String) (code : ℕ) (label : String) :
    Except PyErr (List ℚ) :=
  if cols.all (fun c => t.columns.contains c) then
    match rowLookup t.rows code label with
    | none => .error .keyError
    | some cells => readCells cells cols
  else .error .keyError

/-- Two fetches in sequence, as Python statements: the first raised exception
escapes, otherwise the pure combination of the two results. -/
def seq2 {α β γ : Type} (A : Except PyErr α) (B : Except PyErr β)
    (g : α → β → γ) : Except PyErr γ :=
  match A with
  | .error e => .error e
  | .ok a =>
    match B with
    | .error e => .error e
    | .ok b => .ok (g a b)

/-- Python's `needle in hay` on strings, over the character lists. -/
def isInfixB (needle : List Char) : List Char → Bool
  | [] => needle.isEmpty
  | c :: rest => needle.isPrefixOf (c :: rest) || isInfixB needle rest

/-- Python's `needle in hay` on strings. -/
def strIn (needle hay : String) : Bool := isInfixB needle.toList hay.toList

/-- Python's `n * s` on a string: `s` repeated `n` times. -/
def strRep (n : ℕ) (s : String) : String := String.join (List.replicate n s)

/-- `series[-1]`: the last element; `IndexError` on an empty series. -/
def pyLast (l : List ℚ) : Except PyErr ℚ :=
  match l.getLast? with
  | none => .error .indexError
  | some p => .ok p

/-- The filing-date selection of `ep_ratio`: keep the column labels whose
string form contains the current-year string; with 1 to 3 matches append the
single element `(4 - count) * first` (Python string repetition); with 0
matches fall back to the labels containing the string form of the date 100
days before today. -/
def epSelect (cols : List String) (yearStr hundredStr : String) : List String :=
  match cols.filter (fun d => strIn yearStr d) with
  | [] => cols.filter (fun d => strIn hundredStr d)
  | first :: rest =>
    if (first :: rest).length < 4 then
      (first :: rest) ++ [strRep (4 - (first :: rest).length) first]
    else first :: rest

/-- The data `ep_ratio` works from: the income-statement table, the close
prices, and the string forms of the current year and of the date 100 days
before today. -/
structure EpInput where
  fundamentals : Table
  prices : List ℚ
  yearStr : String
  hundredStr : String

/-- The fetch-and-extract part of `ep_ratio`, in source order: select the
filing dates, read row `(4200, "Basic Earnings Per Share")` over them and
sum it, then read the last close price. -/
def epData (i : EpInput) : Except PyErr (ℚ × ℚ) :=
  seq2
    (i.fundamentals.selRow
      (epSelect i.fundamentals.columns i.yearStr i.hundredStr)
      4200 "Basic Earnings Per Share")
    (pyLast i.prices)
    (fun eps price => (eps.sum, price))

/-- The shared `try/except ZeroDivisionError` tail of the five ratio
functions: divide, round to `p` places, deposit the result under `key` and
return it; on a zero denominator deposit `pd.NA` and return `None`. -/
def finishRatio (key : String) (p : ℕ) (num den : ℚ) (mgr : Store) :
    Except PyErr (Option ℚ) × Store :=
  if den = 0 then (.ok none, deposit mgr key .NA)
  else (.ok (some (roundTo p (num / den))),
        deposit mgr key (.num (roundTo p (num / den))))

/-- `ep_ratio`: summed EPS over the selected filing dates divided by the
latest close price, rounded to 2 places, under key "E/P Ratio". -/
def ep_ratio (i : EpInput) (mgr : Store) : Except PyErr (Option ℚ) × Store :=
  match epData i with
  | .error e => (.error e, mgr)
  | .ok (summed, price) => finishRatio "E/P Ratio" 2 summed price mgr

/-- The data `pb_ratio` works from: the balance-sheet table, the weighted
shares outstanding and the close prices. -/
structure PbInput where
  balance : Table
  shares : ℚ
  prices : List ℚ

/-- The fetches of `pb_ratio` in source order: equity (row `(1400,
"Equity")`, first column), then the last close price; shares come from the
share-info mapping. -/
def pbData (i : PbInput) : Except PyErr (ℚ × ℚ × ℚ) :=
  seq2 (i.balance.rowFirst 1400 "Equity") (pyLast i.prices)
    (fun equity price => (equity, i.shares, price))

/-- `pb_ratio`: `price / (equity / shares)` rounded to 2 places, under key
"P/B Ratio"; both divisions sit inside the `try`. -/
def pb_ratio (i : PbInput) (mgr : Store) : Except PyErr (Option ℚ) × Store :=
  match pbData i with
  | .error e => (.error e, mgr)
  | .ok (equity, shares, price) =>
    if shares = 0 then (.ok none, deposit mgr "P/B Ratio" .NA)
    else finishRatio "P/B Ratio" 2 price (equity / shares) mgr

/-- The data `current_ratio` works from: the balance-sheet table. -/
structure CrInput where
  balance : Table

/-- The fetches of `current_ratio` in source order: assets (row `(100,
"Assets")`, first column), then liabilities (row `(600, "Liabilities")`,
first column). -/
def crData (i : CrInput) : Except PyErr (ℚ × ℚ) :=
  seq2 (i.balance.rowFirst 100 "Assets") (i.balance.rowFirst 600 "Liabilities")
    (fun assets liabilities => (assets, liabilities))

/-- `current_ratio`: `assets / liabilities` rounded to 2 places, under key
"Current Ratio". -/
def current_ratio (i : CrInput) (mgr : Store) : Except PyErr (Option ℚ) × Store :=
  match crData i with
  | .error e => (.error e, mgr)
  | .ok (assets, liabilities) => finishRatio "Current Ratio" 2 assets liabilities mgr

/-- The data `ro_equity` and `ro_assets` work from: the balance-sheet and
income-statement tables. -/
structure RoInput where
  balance : Table
  income : Table

/-- The fetches of `ro_equity` in source order: equity (balance sheet, row
`(1400, "Equity")`, first column), then net income (income statement, row
`(3200, "Net Income/Loss")`, first column). -/
def roeData (i : RoInput) : Except PyErr (ℚ × ℚ) :=
  seq2 (i.balance.rowFirst 1400 "Equity") (i.income.rowFirst 3200 "Net Income/Loss")
    (fun equity inc => (equity, inc))

/-- `ro_equity`: `income / equity` rounded to 2 places, under key "ROE". -/
def ro_equity (i : RoInput) (mgr : Store) : Except PyErr (Option ℚ) × Store :=
  match roeData i with
  | .error e => (.error e, mgr)
  | .ok (equity, inc) => finishRatio "ROE" 2 inc equity mgr

/-- The fetches of `ro_assets` in source order: assets (balance sheet, row
`(100, "Assets")`, first column), then net income (income statement, row
`(3200, "Net Income/Loss")`, first column). -/
def roaData (i : RoInput) : Except PyErr (ℚ × ℚ) :=
  seq2 (i.balance.rowFirst 100 "Assets") (i.income.rowFirst 3200 "Net Income/Loss")
    (fun assets inc => (assets, inc))

/-- `ro_assets`: `income / assets` rounded to 2 places, under key "ROA". -/
def ro_assets (i : RoInput) (mgr : Store) : Except PyErr (Option ℚ) × Store :=
  match roaData i with
  | .error e => (.error e, mgr)
  | .ok (assets, inc) => finishRatio "ROA" 2 inc assets mgr

/-- The data `div_growth` works from: the cash-amount records of the
dividend history in their fetched order. -/
structure DivInput where
  dividends : List ℚ

/-- `Series.pct_change(periods=1).dropna()`: each value's fractional change
from its immediate predecessor, the undefined first entry discarded. -/
def pctChange (l : List ℚ) : List ℚ :=
  (l.zip l.tail).map (fun p => p.2 / p.1 - 1)

/-- The growth multipliers of `div_growth`: reverse the records, take the
period-over-period changes and add 1 to each. -/
def growthFactors (l : List ℚ) : List ℚ :=
  (pctChange l.reverse).map (fun r => r + 1)

/-- `scipy.stats.gmean`: the n-th root of the product of the entries. -/
noncomputable def gmeanR (l : List ℚ) : ℝ :=
  ((l.map (fun q => (q : ℝ))).prod) ^ ((l.length : ℝ))⁻¹

/-- The value `div_growth` computes: the geometric mean of the growth
multipliers minus 1, rounded to 3 places. -/
noncomputable def divResult (l : List ℚ) : ℝ :=
  roundTo3R (gmeanR (growthFactors l) - 1)

/-- `div_growth`: deposits its value under key "Average Dividend growth" and
returns it; no division-by-zero guard exists in this function. -/
noncomputable def div_growth (i : DivInput) (mgr : Store) :
    Except PyErr (Option ℝ) × Store :=
  (.ok (some (divResult i.dividends)),
   deposit mgr "Average Dividend growth" (.real (divResult i.dividends)))

/-! ### Helper lemmas -/

theorem rhe_intCast (z : ℤ) : rhe (z : ℚ) = z := by
  norm_num [rhe, Int.floor_intCast]

theorem roundTo_eq_self (p : ℕ) (x : ℚ) (z : ℤ) (h : x * 10 ^ p = (z : ℚ)) :
    roundTo p x = x := by
  unfold roundTo
  rw [h, rhe_intCast, ← h]
  rw [mul_div_cancel_right₀ _ (by positivity : (10:ℚ) ^ p ≠ 0)]

theorem roundTo_idem (p : ℕ) (x : ℚ) : roundTo p (roundTo p x) = roundTo p x := by
  refine roundTo_eq_self p _ (rhe (x * 10 ^ p)) ?_
  unfold roundTo
  rw [div_mul_cancel₀ _ (by positivity : (10:ℚ) ^ p ≠ 0)]

theorem rheR_intCast (z : ℤ) : rheR (z : ℝ) = z := by
  norm_num [rheR, Int.floor_intCast]

theorem roundTo3R_eq_self (x : ℝ) (z : ℤ) (h : x * 1000 = (z : ℝ)) :
    roundTo3R x = x := by
  unfold roundTo3R
  rw [h, rheR_intCast, ← h]
  rw [mul_div_cancel_right₀ _ (by norm_num : (1000:ℝ) ≠ 0)]

theorem roundTo3R_idem (x : ℝ) : roundTo3R (roundTo3R x) = roundTo3R x := by
  refine roundTo3R_eq_self _ (rheR (x * 1000)) ?_
  unfold roundTo3R
  rw [div_mul_cancel₀ _ (by norm_num : (1000:ℝ) ≠ 0)]

theorem gmeanR_pair (a : ℚ) (ha : (0:ℝ) ≤ (a : ℝ)) : gmeanR [a, a] = (a : ℝ) := by
  have hp : ((([a, a] : List ℚ).map (fun q => (q : ℝ))).prod) = (a : ℝ) ^ (2 : ℕ) := by
    simp
    ring
  have hl : ((([a, a] : List ℚ).length : ℕ) : ℝ) = ((2 : ℕ) : ℝ) := by norm_num
  unfold gmeanR
  rw [hp, hl]
  exact Real.pow_rpow_inv_natCast ha (by norm_num)

theorem divResult_example : divResult [121/100, 11/10, 1] = (1:ℝ)/10 := by
  have hf : growthFactors [121/100, 11/10, 1] = [11/10, 11/10] := by
    norm_num [growthFactors, pctChange, List.zip]
  have hg := gmeanR_pair ((11:ℚ)/10) (by positivity)
  unfold divResult
  rw [hf, hg]
  have h1 : (((11:ℚ)/10 : ℚ) : ℝ) - 1 = 1/10 := by push_cast; norm_num
  rw [h1]
  unfold roundTo3R
  rw [show ((1:ℝ)/10) * 1000 = ((100:ℤ) : ℝ) by norm_num, rheR_intCast]
  norm_num

theorem find_filter_ne {β : Type} (s : List (String × β)) (k k2 : String) (h : k2 ≠ k) :
    (s.filter (fun p => p.1 != k)).find? (fun p => p.1 == k2) =
      s.find? (fun p => p.1 == k2) := by
  induction s with
  | nil => rfl
  | cons a s ih =>
    cases hb : (a.1 == k2) with
    | true =>
      have ha2 : a.1 = k2 := by simpa using hb
      have hbk : (a.1 != k) = true := by simp [ha2]; exact h
      simp [List.filter_cons, hbk, List.find?_cons, hb]
    | false =>
      by_cases hk : a.1 = k
      · have hbk : (a.1 != k) = false := by simp [hk]
        simp [List.filter_cons, hbk, List.find?_cons, hb, ih]
      · have hbk : (a.1 != k) = true := by simp [hk]
        simp [List.filter_cons, hbk, List.find?_cons, hb, ih]

theorem Store.get_set_self (s : Store) (k : String) (v : String × CellVal) :
    Store.get (Store.set s k v) k = some v := by
  simp [Store.set, Store.get, List.find?_cons]

theorem Store.get_set_ne (s : Store) (k k2 : String) (v : String × CellVal)
    (h : k2 ≠ k) : Store.get (Store.set s k v) k2 = Store.get s k2 := by
  simp only [Store.set, Store.get, List.find?_cons]
  have h1 : (k == k2) = false := by simp [Ne.symm h]
  rw [h1]
  rw [find_filter_ne s k k2 h]

theorem deposit_get_ne (mgr : Store) (key k : String) (v : CellVal) (h : k ≠ key) :
    Store.get (deposit mgr key v) k = Store.get mgr k :=
  Store.get_set_ne mgr key k (key, v) h

theorem finishRatio_zero (key : String) (p : ℕ) (num : ℚ) (mgr : Store) :
    finishRatio key p num 0 mgr = (.ok none, deposit mgr key .NA) := by
  simp [finishRatio]

theorem finishRatio_nonzero (key : String) (p : ℕ) (num den : ℚ) (mgr : Store)
    (h : den ≠ 0) :
    finishRatio key p num den mgr =
      (.ok (some (roundTo p (num / den))),
       deposit mgr key (.num (roundTo p (num / den)))) := by
  simp [finishRatio, h]

theorem finishRatio_snd (key : String) (p : ℕ) (num den : ℚ) (mgr : Store) :
    ∃ v, (finishRatio key p num den mgr).2 = deposit mgr key v := by
  unfold finishRatio
  by_cases h : den = 0 <;> simp [h]

theorem finishRatio_get_ne (key : String) (p : ℕ) (num den : ℚ) (mgr : Store)
    (k : String) (h : k ≠ key) :
    Store.get ((finishRatio key p num den mgr).2) k = Store.get mgr k := by
  obtain ⟨v, hv⟩ := finishRatio_snd key p num den mgr
  rw [hv, deposit_get_ne mgr key k v h]

theorem finishRatio_fst_indep (key : String) (p : ℕ) (num den : ℚ)
    (mgr mgr2 : Store) :
    (finishRatio key p num den mgr).1 = (finishRatio key p num den mgr2).1 := by
  unfold finishRatio
  by_cases h : den = 0 <;> simp [h]

theorem finishRatio_fst_ok (key : String) (p : ℕ) (num den : ℚ) (mgr : Store) :
    ∃ o, (finishRatio key p num den mgr).1 = .ok o := by
  unfold finishRatio
  by_cases h : den = 0 <;> simp [h]

theorem finishRatio_ok_some (key : String) (p : ℕ) (num den : ℚ) (mgr : Store)
    (q : ℚ) (h : (finishRatio key p num den mgr).1 = .ok (some q)) :
    q = roundTo p (num / den) := by
  by_cases hd : den = 0
  · subst hd
    rw [finishRatio_zero] at h
    simp at h
  · rw [finishRatio_nonzero key p num den mgr hd] at h
    simpa using h.symm

theorem seq2_error {α β γ : Type} (A : Except PyErr α) (B : Except PyErr β)
    (g : α → β → γ) (e : PyErr) (h : seq2 A B g = .error e) :
    A = .error e ∨ B = .error e := by
  unfold seq2 at h
  cases hA : A with
  | error e2 => rw [hA] at h; simp at h; subst h; exact Or.inl rfl
  | ok a =>
    rw [hA] at h
    cases hB : B with
    | error e2 => rw [hB] at h; simp at h; subst h; exact Or.inr rfl
    | ok b => rw [hB] at h; simp at h

theorem seq2_ok {α β γ : Type} (A : Except PyErr α) (B : Except PyErr β)
    (g : α → β → γ) (a : α) (b : β) (hA : A = .ok a) (hB : B = .ok b) :
    seq2 A B g = .ok (g a b) := by
  unfold seq2
  rw [hA, hB]

theorem seq2_ok_elim {α β γ : Type} (A : Except PyErr α) (B : Except PyErr β)
    (g : α → β → γ) (c : γ) (h : seq2 A B g = .ok c) :
    ∃ a b, A = .ok a ∧ B = .ok b ∧ c = g a b := by
  unfold seq2 at h
  cases hA : A with
  | error e2 => rw [hA] at h; simp at h
  | ok a =>
    rw [hA] at h
    cases hB : B with
    | error e2 => rw [hB] at h; simp at h
    | ok b => rw [hB] at h; simp at h; exact ⟨a, b, rfl, rfl, h.symm⟩

theorem readCells_error (cells : List (String × ℚ)) (cols : List String)
    (e : PyErr) (h : readCells cells cols = .error e) : e = .keyError := by
  induction cols with
  | nil => simp [readCells] at h
  | cons c rest ih =>
    unfold readCells at h
    cases hf : cells.find? (fun p => p.1 == c) with
    | none => rw [hf] at h; simp at h; exact h.symm
    | some p =>
      rw [hf] at h
      cases hr : readCells cells rest with
      | error e2 => rw [hr] at h; simp at h; subst h; exact ih hr
      | ok vs => rw [hr] at h; simp at h

theorem selRow_error (t : Table) (cols : List String) (code : ℕ) (label : String)
    (e : PyErr) (h : t.selRow cols code label = .error e) : e = .keyError := by
  unfold Table.selRow at h
  by_cases hall : (cols.all (fun c => t.columns.contains c)) = true
  · rw [if_pos hall] at h
    cases hr : rowLookup t.rows code label with
    | none => rw [hr] at h; simp at h; exact h.symm
    | some cells => rw [hr] at h; exact readCells_error cells cols e h
  · rw [if_neg hall] at h
    simp at h
    exact h.symm

theorem rowFirst_error (t : Table) (code : ℕ) (label : String) (e : PyErr)
    (h : t.rowFirst code label = .error e) :
    e = .keyError ∨ e = .indexError := by
  unfold Table.rowFirst at h
  cases hr : rowLookup t.rows code label with
  | none => rw [hr] at h; simp at h; exact Or.inl h.symm
  | some cells =>
    cases cells with
    | nil => rw [hr] at h; simp at h; exact Or.inr h.symm
    | cons a rest => rw [hr] at h; simp at h

theorem pyLast_error (l : List ℚ) (e : PyErr) (h : pyLast l = .error e) :
    e = .indexError := by
  unfold pyLast at h
  cases hl : l.getLast? with
  | none => rw [hl] at h; simp at h; exact h.symm
  | some p => rw [hl] at h; simp at h

/-! ### Concrete instances -/

/-- An income statement with four filing dates in 2025: EPS (4200) values
1, 2, 3, 4 and net income (3200) first value 50. -/
def exIncomeTable : Table :=
  { columns := ["2025-03-31", "2025-06-30", "2025-09-30", "2025-12-31"],
    rows := [((4200, "Basic Earnings Per Share"),
               [("2025-03-31", 1), ("2025-06-30", 2), ("2025-09-30", 3),
                ("2025-12-31", 4)]),
             ((3200, "Net Income/Loss"),
               [("2025-03-31", 50), ("2025-06-30", 40), ("2025-09-30", 30),
                ("2025-12-31", 20)])] }

/-- A balance sheet with assets 500, liabilities 250, equity 200. -/
def exBalanceTable : Table :=
  { columns := ["2025-06-30"],
    rows := [((100, "Assets"), [("2025-06-30", 500)]),
             ((600, "Liabilities"), [("2025-06-30", 250)]),
             ((1400, "Equity"), [("2025-06-30", 200)])] }

/-- A balance sheet with assets 1000 (for the ROA example). -/
def exBalanceRoa : Table :=
  { columns := ["2025-06-30"],
    rows := [((100, "Assets"), [("2025-06-30", 1000)]),
             ((600, "Liabilities"), [("2025-06-30", 250)]),
             ((1400, "Equity"), [("2025-06-30", 200)])] }

/-- A balance sheet with equity 100 (for the P/B example). -/
def exBalancePb : Table :=
  { columns := ["2025-06-30"],
    rows := [((1400, "Equity"), [("2025-06-30", 100)])] }

/-- A balance sheet whose assets, liabilities and equity are all zero. -/
def exBalanceZero : Table :=
  { columns := ["2025-06-30"],
    rows := [((100, "Assets"), [("2025-06-30", 0)]),
             ((600, "Liabilities"), [("2025-06-30", 0)]),
             ((1400, "Equity"), [("2025-06-30", 0)])] }

/-- A table with no columns and no rows. -/
def exEmptyTable : Table := { columns := [], rows := [] }

/-- `ep_ratio` input with four 2025 filing dates and latest price 5. -/
def exEp4 : EpInput :=
  { fundamentals := exIncomeTable, prices := [3, 5], yearStr := "2025",
    hundredStr := "x" }

/-- `ep_ratio` input whose latest close price is zero. -/
def exEpZeroPrice : EpInput :=
  { fundamentals := exIncomeTable, prices := [0], yearStr := "2025",
    hundredStr := "x" }

/-- An income statement with exactly two filing dates in 2025. -/
def exTable2 : Table :=
  { columns := ["2025-03-31", "2025-06-30"],
    rows := [((4200, "Basic Earnings Per Share"),
               [("2025-03-31", 2), ("2025-06-30", 3)])] }

/-- `ep_ratio` input with exactly two current-year filing dates. -/
def exEp2 : EpInput :=
  { fundamentals := exTable2, prices := [10], yearStr := "2025",
    hundredStr := "x" }

theorem exEp4_data : epData exEp4 = .ok (10, 5) := by
  have h : epData exEp4 = .ok (([1, 2, 3, 4] : List ℚ).sum, 5) := rfl
  rw [h]
  norm_num

theorem exEpZeroPrice_data : epData exEpZeroPrice = .ok (10, 0) := by
  have h : epData exEpZeroPrice = .ok (([1, 2, 3, 4] : List ℚ).sum, 0) := rfl
  rw [h]
  norm_num

theorem exCr_data : crData ⟨exBalanceTable⟩ = .ok (500, 250) := rfl

theorem exCrZero_data : crData ⟨exBalanceZero⟩ = .ok (0, 0) := rfl

theorem exRoe_data : roeData ⟨exBalanceTable, exIncomeTable⟩ = .ok (200, 50) := rfl

theorem exRoeZero_data : roeData ⟨exBalanceZero, exIncomeTable⟩ = .ok (0, 50) := rfl

theorem exRoa_data : roaData ⟨exBalanceRoa, exIncomeTable⟩ = .ok (1000, 50) := rfl

theorem exRoaZero_data : roaData ⟨exBalanceZero, exIncomeTable⟩ = .ok (0, 50) := rfl

theorem exPb_data : pbData ⟨exBalancePb, 10, [20]⟩ = .ok (100, 10, 20) := rfl

theorem exPbZeroShares_data : pbData ⟨exBalancePb, 0, [20]⟩ = .ok (100, 0, 20) := rfl

theorem exPbZeroEquity_data : pbData ⟨exBalanceZero, 10, [20]⟩ = .ok (0, 10, 20) := rfl

/-- The dividend history 1.21, 1.10, 1.00 (newest first, as fetched). -/
def exDiv : DivInput := ⟨[121/100, 11/10, 1]⟩

theorem exEp4_result :
    ep_ratio exEp4 Store.empty =
      (.ok (some 2), deposit Store.empty "E/P Ratio" (.num 2)) := by
  unfold ep_ratio
  rw [exEp4_data]
  show finishRatio "E/P Ratio" 2 10 5 Store.empty = _
  rw [finishRatio_nonzero _ _ _ _ _ (by norm_num : (5:ℚ) ≠ 0)]
  have h : roundTo 2 ((10:ℚ)/5) = 2 := by
    have h1 : (10:ℚ)/5 = 2 := by norm_num
    rw [h1]
    exact roundTo_eq_self 2 2 200 (by norm_num)
  rw [h]

theorem exDiv_result :
    div_growth exDiv Store.empty =
      (.ok (some ((1:ℝ)/10)),
       deposit Store.empty "Average Dividend growth" (.real ((1:ℝ)/10))) := by
  unfold div_growth
  show (Except.ok (some (divResult [121/100, 11/10, 1])),
        deposit Store.empty "Average Dividend growth"
          (.real (divResult [121/100, 11/10, 1]))) = _
  rw [divResult_example]

/-! ### The claims -/

/-- C1: the claim says that with 1 to 3 current-year matches the selected
list is padded to exactly 4 entries, each extra entry equal to the first
matched date. The code instead appends the one element
`(4 - count) * first`, Python string repetition: with the two matches
"2025-03-31" and "2025-06-30" the selected list has 3 entries, its last is
the concatenation "2025-03-312025-03-31", and the subsequent column
selection fails with `KeyError` instead of summing any EPS. -/
theorem c1_padding_appends_one_repeated_string :
    epSelect ["2025-03-31", "2025-06-30"] "2025" "x" =
      ["2025-03-31", "2025-06-30", "2025-03-312025-03-31"] ∧
    (epSelect ["2025-03-31", "2025-06-30"] "2025" "x").length = 3 ∧
    ep_ratio exEp2 Store.empty = (.error .keyError, Store.empty) :=
  ⟨by decide, by decide, rfl⟩

/-- C5: with zero current-year matches, `ep_ratio` falls back to selecting
exactly the date columns whose string form contains the string form of the
date 100 days before today. -/
theorem c5_zero_matches_fallback (cols : List String)
    (yearStr hundredStr : String)
    (h : cols.filter (fun d => strIn yearStr d) = []) :
    epSelect cols yearStr hundredStr =
      cols.filter (fun d => strIn hundredStr d) := by
  unfold epSelect
  rw [h]

theorem c5_zero_matches_fallback_witness :
    (["2024-03-31", "2024-07-04x"].filter (fun d => strIn "2025" d) = []) ∧
    epSelect ["2024-03-31", "2024-07-04x"] "2025" "2024-07-04" =
      ["2024-03-31", "2024-07-04x"].filter (fun d => strIn "2024-07-04" d) ∧
    epSelect ["2024-03-31", "2024-07-04x"] "2025" "2024-07-04" =
      ["2024-07-04x"] :=
  ⟨by decide, c5_zero_matches_fallback _ _ _ (by decide), by decide⟩

/-- C6: with 4 or more current-year matches the selection is the matched
list unchanged (no truncation), and the trailing EPS estimate summed by
`ep_ratio` is the sum of row (4200, Basic Earnings Per Share) over every
selected column. -/
theorem c6_four_or_more_matches_all_summed (t : Table)
    (yearStr hundredStr : String) (prices vals : List ℚ) (price : ℚ)
    (h4 : 4 ≤ (t.columns.filter (fun d => strIn yearStr d)).length)
    (hv : t.selRow (t.columns.filter (fun d => strIn yearStr d)) 4200
        "Basic Earnings Per Share" = .ok vals)
    (hp : pyLast prices = .ok price) :
    epSelect t.columns yearStr hundredStr =
      t.columns.filter (fun d => strIn yearStr d) ∧
    epData ⟨t, prices, yearStr, hundredStr⟩ = .ok (vals.sum, price) := by
  have hsel : epSelect t.columns yearStr hundredStr =
      t.columns.filter (fun d => strIn yearStr d) := by
    unfold epSelect
    cases hcur : t.columns.filter (fun d => strIn yearStr d) with
    | nil => rw [hcur] at h4; simp at h4
    | cons first rest =>
      rw [hcur] at h4
      show (if (first :: rest).length < 4 then
          (first :: rest) ++ [strRep (4 - (first :: rest).length) first]
        else first :: rest) = first :: rest
      rw [if_neg (Nat.not_lt.mpr h4)]
  refine ⟨hsel, ?_⟩
  show seq2
      (t.selRow (epSelect t.columns yearStr hundredStr) 4200
        "Basic Earnings Per Share")
      (pyLast prices) (fun eps price => (eps.sum, price)) = .ok (vals.sum, price)
  rw [hsel]
  exact seq2_ok _ _ _ _ _ hv hp

theorem c6_four_or_more_matches_witness :
    4 ≤ (exIncomeTable.columns.filter (fun d => strIn "2025" d)).length ∧
    epSelect exIncomeTable.columns "2025" "x" =
      exIncomeTable.columns.filter (fun d => strIn "2025" d) ∧
    epData exEp4 = .ok (([1, 2, 3, 4] : List ℚ).sum, 5) :=
  ⟨by decide,
   (c6_four_or_more_matches_all_summed exIncomeTable "2025" "x" [3, 5]
     [1, 2, 3, 4] 5 (by decide) rfl rfl).1,
   (c6_four_or_more_matches_all_summed exIncomeTable "2025" "x" [3, 5]
     [1, 2, 3, 4] 5 (by decide) rfl rfl).2⟩

/-- C2: whenever the division's denominator is zero, each ratio function
returns `None` and deposits the missing marker `pd.NA` under its key (the
`ZeroDivisionError` is caught, not propagated). For `pb_ratio` this covers
both divisions: `shares = 0` (inner) and `equity / shares = 0` (outer). -/
theorem c2_zero_denominator_missing_marker :
    (∀ (i : EpInput) (mgr : Store) (s : ℚ), epData i = .ok (s, 0) →
      ep_ratio i mgr = (.ok none, deposit mgr "E/P Ratio" .NA)) ∧
    (∀ (i : PbInput) (mgr : Store) (e s p : ℚ), pbData i = .ok (e, s, p) →
      s = 0 ∨ e / s = 0 →
      pb_ratio i mgr = (.ok none, deposit mgr "P/B Ratio" .NA)) ∧
    (∀ (i : CrInput) (mgr : Store) (a : ℚ), crData i = .ok (a, 0) →
      current_ratio i mgr = (.ok none, deposit mgr "Current Ratio" .NA)) ∧
    (∀ (i : RoInput) (mgr : Store) (inc : ℚ), roeData i = .ok (0, inc) →
      ro_equity i mgr = (.ok none, deposit mgr "ROE" .NA)) ∧
    (∀ (i : RoInput) (mgr : Store) (inc : ℚ), roaData i = .ok (0, inc) →
      ro_assets i mgr = (.ok none, deposit mgr "ROA" .NA)) := by
  refine ⟨?_, ?_, ?_, ?_, ?_⟩
  · intro i mgr s h
    unfold ep_ratio
    rw [h]
    exact finishRatio_zero _ _ _ _
  · intro i mgr e s p h hz
    unfold pb_ratio
    rw [h]
    show (if s = 0 then _ else finishRatio "P/B Ratio" 2 p (e / s) mgr) = _
    by_cases hs : s = 0
    · rw [if_pos hs]
    · rw [if_neg hs]
      rcases hz with hz | hz
      · exact absurd hz hs
      · rw [hz]
        exact finishRatio_zero _ _ _ _
  · intro i mgr a h
    unfold current_ratio
    rw [h]
    exact finishRatio_zero _ _ _ _
  · intro i mgr inc h
    unfold ro_equity
    rw [h]
    exact finishRatio_zero _ _ _ _
  · intro i mgr inc h
    unfold ro_assets
    rw [h]
    exact finishRatio_zero _ _ _ _

theorem c2_zero_denominator_witness :
    epData exEpZeroPrice = .ok (10, 0) ∧
    ep_ratio exEpZeroPrice Store.empty =
      (.ok none, deposit Store.empty "E/P Ratio" .NA) ∧
    pb_ratio ⟨exBalancePb, 0, [20]⟩ Store.empty =
      (.ok none, deposit Store.empty "P/B Ratio" .NA) ∧
    pb_ratio ⟨exBalanceZero, 10, [20]⟩ Store.empty =
      (.ok none, deposit Store.empty "P/B Ratio" .NA) ∧
    current_ratio ⟨exBalanceZero⟩ Store.empty =
      (.ok none, deposit Store.empty "Current Ratio" .NA) ∧
    ro_equity ⟨exBalanceZero, exIncomeTable⟩ Store.empty =
      (.ok none, deposit Store.empty "ROE" .NA) ∧
    ro_assets ⟨exBalanceZero, exIncomeTable⟩ Store.empty =
      (.ok none, deposit Store.empty "ROA" .NA) :=
  ⟨exEpZeroPrice_data,
   c2_zero_denominator_missing_marker.1 exEpZeroPrice Store.empty 10
     exEpZeroPrice_data,
   c2_zero_denominator_missing_marker.2.1 ⟨exBalancePb, 0, [20]⟩ Store.empty
     100 0 20 exPbZeroShares_data (Or.inl rfl),
   c2_zero_denominator_missing_marker.2.1 ⟨exBalanceZero, 10, [20]⟩ Store.empty
     0 10 20 exPbZeroEquity_data (Or.inr (by norm_num)),
   c2_zero_denominator_missing_marker.2.2.1 ⟨exBalanceZero⟩ Store.empty 0
     exCrZero_data,
   c2_zero_denominator_missing_marker.2.2.2.1 ⟨exBalanceZero, exIncomeTable⟩
     Store.empty 50 exRoeZero_data,
   c2_zero_denominator_missing_marker.2.2.2.2 ⟨exBalanceZero, exIncomeTable⟩
     Store.empty 50 exRoaZero_data⟩

/-- C3: with a non-zero denominator, `current_ratio`, `ro_equity` and
`ro_assets` return exactly `round(numerator / denominator, 2)` per their
formulas (assets/liabilities, income/equity, income/assets), and deposit
that same value under their keys. -/
theorem c3_rounded_formula :
    (∀ (i : CrInput) (mgr : Store) (a l : ℚ), crData i = .ok (a, l) → l ≠ 0 →
      current_ratio i mgr =
        (.ok (some (roundTo 2 (a / l))),
         deposit mgr "Current Ratio" (.num (roundTo 2 (a / l))))) ∧
    (∀ (i : RoInput) (mgr : Store) (e inc : ℚ), roeData i = .ok (e, inc) →
      e ≠ 0 →
      ro_equity i mgr =
        (.ok (some (roundTo 2 (inc / e))),
         deposit mgr "ROE" (.num (roundTo 2 (inc / e))))) ∧
    (∀ (i : RoInput) (mgr : Store) (a inc : ℚ), roaData i = .ok (a, inc) →
      a ≠ 0 →
      ro_assets i mgr =
        (.ok (some (roundTo 2 (inc / a))),
         deposit mgr "ROA" (.num (roundTo 2 (inc / a))))) := by
  refine ⟨?_, ?_, ?_⟩
  · intro i mgr a l h hne
    unfold current_ratio
    rw [h]
    exact finishRatio_nonzero _ _ _ _ _ hne
  · intro i mgr e inc h hne
    unfold ro_equity
    rw [h]
    exact finishRatio_nonzero _ _ _ _ _ hne
  · intro i mgr a inc h hne
    unfold ro_assets
    rw [h]
    exact finishRatio_nonzero _ _ _ _ _ hne

theorem c3_rounded_formula_witness :
    current_ratio ⟨exBalanceTable⟩ Store.empty =
      (.ok (some (roundTo 2 ((500:ℚ) / 250))),
       deposit Store.empty "Current Ratio" (.num (roundTo 2 ((500:ℚ) / 250)))) ∧
    roundTo 2 ((500:ℚ) / 250) = 2 ∧
    ro_equity ⟨exBalanceTable, exIncomeTable⟩ Store.empty =
      (.ok (some (roundTo 2 ((50:ℚ) / 200))),
       deposit Store.empty "ROE" (.num (roundTo 2 ((50:ℚ) / 200)))) ∧
    roundTo 2 ((50:ℚ) / 200) = 1/4 ∧
    ro_assets ⟨exBalanceRoa, exIncomeTable⟩ Store.empty =
      (.ok (some (roundTo 2 ((50:ℚ) / 1000))),
       deposit Store.empty "ROA" (.num (roundTo 2 ((50:ℚ) / 1000)))) ∧
    roundTo 2 ((50:ℚ) / 1000) = 1/20 :=
  ⟨c3_rounded_formula.1 ⟨exBalanceTable⟩ Store.empty 500 250 exCr_data
     (by norm_num),
   by
     have h1 : (500:ℚ)/250 = 2 := by norm_num
     rw [h1]
     exact roundTo_eq_self 2 2 200 (by norm_num),
   c3_rounded_formula.2.1 ⟨exBalanceTable, exIncomeTable⟩ Store.empty 200 50
     exRoe_data (by norm_num),
   by
     have h1 : (50:ℚ)/200 = 1/4 := by norm_num
     rw [h1]
     exact roundTo_eq_self 2 (1/4) 25 (by norm_num),
   c3_rounded_formula.2.2 ⟨exBalanceRoa, exIncomeTable⟩ Store.empty 1000 50
     exRoa_data (by norm_num),
   by
     have h1 : (50:ℚ)/1000 = 1/20 := by norm_num
     rw [h1]
     exact roundTo_eq_self 2 (1/20) 5 (by norm_num)⟩

/-- C4: `pb_ratio` computes `round(price / (equity / shares), 2)`; it
produces the missing marker (returning `None`) exactly when `shares = 0` or
`equity = 0`, and otherwise deposits the rounded ratio under "P/B Ratio". -/
theorem c4_pb_formula_and_zero_cases :
    (∀ (i : PbInput) (mgr : Store) (e s p : ℚ), pbData i = .ok (e, s, p) →
      s = 0 ∨ e = 0 →
      pb_ratio i mgr = (.ok none, deposit mgr "P/B Ratio" .NA)) ∧
    (∀ (i : PbInput) (mgr : Store) (e s p : ℚ), pbData i = .ok (e, s, p) →
      s ≠ 0 → e ≠ 0 →
      pb_ratio i mgr =
        (.ok (some (roundTo 2 (p / (e / s)))),
         deposit mgr "P/B Ratio" (.num (roundTo 2 (p / (e / s)))))) := by
  constructor
  · intro i mgr e s p h hz
    unfold pb_ratio
    rw [h]
    show (if s = 0 then _ else finishRatio "P/B Ratio" 2 p (e / s) mgr) = _
    by_cases hs : s = 0
    · rw [if_pos hs]
    · rw [if_neg hs]
      have he : e = 0 := hz.resolve_left hs
      rw [he, zero_div]
      exact finishRatio_zero _ _ _ _
  · intro i mgr e s p h hs he
    unfold pb_ratio
    rw [h]
    show (if s = 0 then _ else finishRatio "P/B Ratio" 2 p (e / s) mgr) = _
    rw [if_neg hs]
    exact finishRatio_nonzero _ _ _ _ _ (div_ne_zero he hs)

theorem c4_pb_witness :
    pb_ratio ⟨exBalancePb, 10, [20]⟩ Store.empty =
      (.ok (some (roundTo 2 ((20:ℚ) / ((100:ℚ) / 10)))),
       deposit Store.empty "P/B Ratio"
         (.num (roundTo 2 ((20:ℚ) / ((100:ℚ) / 10))))) ∧
    roundTo 2 ((20:ℚ) / ((100:ℚ) / 10)) = 2 ∧
    pb_ratio ⟨exBalancePb, 0, [20]⟩ Store.empty =
      (.ok none, deposit Store.empty "P/B Ratio" .NA) ∧
    pb_ratio ⟨exBalanceZero, 10, [20]⟩ Store.empty =
      (.ok none, deposit Store.empty "P/B Ratio" .NA) :=
  ⟨c4_pb_formula_and_zero_cases.2 ⟨exBalancePb, 10, [20]⟩ Store.empty 100 10 20
     exPb_data (by norm_num) (by norm_num),
   by
     have h1 : (20:ℚ) / ((100:ℚ) / 10) = 2 := by norm_num
     rw [h1]
     exact roundTo_eq_self 2 2 200 (by norm_num),
   c4_pb_formula_and_zero_cases.1 ⟨exBalancePb, 0, [20]⟩ Store.empty 100 0 20
     exPbZeroShares_data (Or.inl rfl),
   c4_pb_formula_and_zero_cases.1 ⟨exBalanceZero, 10, [20]⟩ Store.empty 0 10 20
     exPbZeroEquity_data (Or.inr rfl)⟩

/-- C7: `div_growth` reverses the record order, takes each value's
fractional change from its predecessor (the undefined first entry
discarded), adds 1 to each rate, and returns the geometric mean minus 1
rounded to 3 places, depositing it under "Average Dividend growth"; on the
history 1.21, 1.10, 1.00 (reversing to 1.00, 1.10, 1.21 oldest-to-newest)
the result is 0.10. -/
theorem c7_div_growth_pipeline :
    (∀ (i : DivInput) (mgr : Store),
      div_growth i mgr =
        (.ok (some (roundTo3R
            (gmeanR ((pctChange i.dividends.reverse).map (fun r => r + 1)) - 1))),
         deposit mgr "Average Dividend growth"
           (.real (roundTo3R
             (gmeanR ((pctChange i.dividends.reverse).map (fun r => r + 1)) - 1))))) ∧
    div_growth exDiv Store.empty =
      (.ok (some ((1:ℝ)/10)),
       deposit Store.empty "Average Dividend growth" (.real ((1:ℝ)/10))) :=
  ⟨fun _ _ => rfl, exDiv_result⟩

theorem epData_error_ne (i : EpInput) (e : PyErr) (h : epData i = .error e) :
    e ≠ .zeroDivisionError := by
  rcases seq2_error _ _ _ e h with hA | hB
  · rw [selRow_error _ _ _ _ _ hA]
    decide
  · rw [pyLast_error _ _ hB]
    decide

theorem pbData_error_ne (i : PbInput) (e : PyErr) (h : pbData i = .error e) :
    e ≠ .zeroDivisionError := by
  rcases seq2_error _ _ _ e h with hA | hB
  · rcases rowFirst_error _ _ _ _ hA with h1 | h1 <;> rw [h1] <;> decide
  · rw [pyLast_error _ _ hB]
    decide

theorem seq2_rowFirst_error_ne (t1 t2 : Table) (c1 c2 : ℕ) (l1 l2 : String)
    {γ : Type} (g : ℚ → ℚ → γ) (e : PyErr)
    (h : seq2 (t1.rowFirst c1 l1) (t2.rowFirst c2 l2) g = .error e) :
    e ≠ .zeroDivisionError := by
  rcases seq2_error _ _ _ e h with hA | hB
  · rcases rowFirst_error _ _ _ _ hA with h1 | h1 <;> rw [h1] <;> decide
  · rcases rowFirst_error _ _ _ _ hB with h1 | h1 <;> rw [h1] <;> decide

/-- `ep_ratio` input whose table has no rows at all: the EPS row lookup
fails with `KeyError`. -/
def exEpErr : EpInput := ⟨exEmptyTable, [], "2025", "x"⟩

/-- C10: when any exception other than the caught `ZeroDivisionError`
escapes a ratio function (a failed fetch, row or column lookup), the results
store is returned exactly as it was: nothing, not even the missing marker,
is deposited, because the store write sits after the computation inside the
`try` (or in its `except` arm). Moreover the escaping exception is never
`ZeroDivisionError`. -/
theorem c10_store_unchanged_on_error :
    (∀ (i : EpInput) (mgr : Store) (e : PyErr),
      (ep_ratio i mgr).1 = .error e →
      (ep_ratio i mgr).2 = mgr ∧ e ≠ .zeroDivisionError) ∧
    (∀ (i : PbInput) (mgr : Store) (e : PyErr),
      (pb_ratio i mgr).1 = .error e →
      (pb_ratio i mgr).2 = mgr ∧ e ≠ .zeroDivisionError) ∧
    (∀ (i : CrInput) (mgr : Store) (e : PyErr),
      (current_ratio i mgr).1 = .error e →
      (current_ratio i mgr).2 = mgr ∧ e ≠ .zeroDivisionError) ∧
    (∀ (i : RoInput) (mgr : Store) (e : PyErr),
      (ro_equity i mgr).1 = .error e →
      (ro_equity i mgr).2 = mgr ∧ e ≠ .zeroDivisionError) ∧
    (∀ (i : RoInput) (mgr : Store) (e : PyErr),
      (ro_assets i mgr).1 = .error e →
      (ro_assets i mgr).2 = mgr ∧ e ≠ .zeroDivisionError) := by
  refine ⟨?_, ?_, ?_, ?_, ?_⟩
  · intro i mgr e h
    unfold ep_ratio at h ⊢
    rcases hd : epData i with e2 | ⟨s, p⟩
    · rw [hd] at h
      have he : e2 = e := by simpa using h
      subst he
      exact ⟨rfl, epData_error_ne i e2 hd⟩
    · rw [hd] at h
      obtain ⟨o, ho⟩ := finishRatio_fst_ok "E/P Ratio" 2 s p mgr
      have h2 : (finishRatio "E/P Ratio" 2 s p mgr).1 = .error e := h
      rw [ho] at h2
      exact absurd h2 (by simp)
  · intro i mgr e h
    unfold pb_ratio at h ⊢
    rcases hd : pbData i with e2 | ⟨e0, s0, p0⟩
    · rw [hd] at h
      have he : e2 = e := by simpa using h
      subst he
      exact ⟨rfl, pbData_error_ne i e2 hd⟩
    · rw [hd] at h
      have h2 : ((if s0 = 0 then
          ((.ok none : Except PyErr (Option ℚ)), deposit mgr "P/B Ratio" .NA)
        else finishRatio "P/B Ratio" 2 p0 (e0 / s0) mgr)).1 = .error e := h
      by_cases hs : s0 = 0
      · rw [if_pos hs] at h2
        exact absurd h2 (by simp)
      · rw [if_neg hs] at h2
        obtain ⟨o, ho⟩ := finishRatio_fst_ok "P/B Ratio" 2 p0 (e0 / s0) mgr
        rw [ho] at h2
        exact absurd h2 (by simp)
  · intro i mgr e h
    unfold current_ratio at h ⊢
    rcases hd : crData i with e2 | ⟨a, l⟩
    · rw [hd] at h
      have he : e2 = e := by simpa using h
      subst he
      exact ⟨rfl, seq2_rowFirst_error_ne _ _ _ _ _ _ _ e2 hd⟩
    · rw [hd] at h
      obtain ⟨o, ho⟩ := finishRatio_fst_ok "Current Ratio" 2 a l mgr
      have h2 : (finishRatio "Current Ratio" 2 a l mgr).1 = .error e := h
      rw [ho] at h2
      exact absurd h2 (by simp)
  · intro i mgr e h
    unfold ro_equity at h ⊢
    rcases hd : roeData i with e2 | ⟨e0, inc⟩
    · rw [hd] at h
      have he : e2 = e := by simpa using h
      subst he
      exact ⟨rfl, seq2_rowFirst_error_ne _ _ _ _ _ _ _ e2 hd⟩
    · rw [hd] at h
      obtain ⟨o, ho⟩ := finishRatio_fst_ok "ROE" 2 inc e0 mgr
      have h2 : (finishRatio "ROE" 2 inc e0 mgr).1 = .error e := h
      rw [ho] at h2
      exact absurd h2 (by simp)
  · intro i mgr e h
    unfold ro_assets at h ⊢
    rcases hd : roaData i with e2 | ⟨a, inc⟩
    · rw [hd] at h
      have he : e2 = e := by simpa using h
      subst he
      exact ⟨rfl, seq2_rowFirst_error_ne _ _ _ _ _ _ _ e2 hd⟩
    · rw [hd] at h
      obtain ⟨o, ho⟩ := finishRatio_fst_ok "ROA" 2 inc a mgr
      have h2 : (finishRatio "ROA" 2 inc a mgr).1 = .error e := h
      rw [ho] at h2
      exact absurd h2 (by simp)

theorem c10_store_unchanged_witness :
    (ep_ratio exEpErr Store.empty).1 = .error .keyError ∧
    ((ep_ratio exEpErr Store.empty).2 = Store.empty ∧
      PyErr.keyError ≠ .zeroDivisionError) ∧
    (current_ratio ⟨exEmptyTable⟩ Store.empty).1 = .error .keyError ∧
    ((current_ratio ⟨exEmptyTable⟩ Store.empty).2 = Store.empty ∧
      PyErr.keyError ≠ .zeroDivisionError) :=
  ⟨rfl,
   c10_store_unchanged_on_error.1 exEpErr Store.empty .keyError rfl,
   rfl,
   c10_store_unchanged_on_error.2.2.1 ⟨exEmptyTable⟩ Store.empty .keyError rfl⟩

/-- C8: each calculation function touches only its own key of the shared
store. For every function: (a) every other key reads the same before and
after; (b) the returned value never depends on the store's contents (no
function reads the store); (c) the final store is either unchanged (an
escaping exception) or the deposit, under the function's own ratio name, of
the one-entry mapping from that same name to some value. -/
theorem c8_store_discipline :
    ((∀ (i : EpInput) (mgr : Store) (k : String), k ≠ "E/P Ratio" →
        Store.get ((ep_ratio i mgr).2) k = Store.get mgr k) ∧
      (∀ (i : EpInput) (mgr mgr2 : Store),
        (ep_ratio i mgr).1 = (ep_ratio i mgr2).1) ∧
      (∀ (i : EpInput) (mgr : Store), (ep_ratio i mgr).2 = mgr ∨
        ∃ v, (ep_ratio i mgr).2 = deposit mgr "E/P Ratio" v)) ∧
    ((∀ (i : PbInput) (mgr : Store) (k : String), k ≠ "P/B Ratio" →
        Store.get ((pb_ratio i mgr).2) k = Store.get mgr k) ∧
      (∀ (i : PbInput) (mgr mgr2 : Store),
        (pb_ratio i mgr).1 = (pb_ratio i mgr2).1) ∧
      (∀ (i : PbInput) (mgr : Store), (pb_ratio i mgr).2 = mgr ∨
        ∃ v, (pb_ratio i mgr).2 = deposit mgr "P/B Ratio" v)) ∧
    ((∀ (i : CrInput) (mgr : Store) (k : String), k ≠ "Current Ratio" →
        Store.get ((current_ratio i mgr).2) k = Store.get mgr k) ∧
      (∀ (i : CrInput) (mgr mgr2 : Store),
        (current_ratio i mgr).1 = (current_ratio i mgr2).1) ∧
      (∀ (i : CrInput) (mgr : Store), (current_ratio i mgr).2 = mgr ∨
        ∃ v, (current_ratio i mgr).2 = deposit mgr "Current Ratio" v)) ∧
    ((∀ (i : RoInput) (mgr : Store) (k : String), k ≠ "ROE" →
        Store.get ((ro_equity i mgr).2) k = Store.get mgr k) ∧
      (∀ (i : RoInput) (mgr mgr2 : Store),
        (ro_equity i mgr).1 = (ro_equity i mgr2).1) ∧
      (∀ (i : RoInput) (mgr : Store), (ro_equity i mgr).2 = mgr ∨
        ∃ v, (ro_equity i mgr).2 = deposit mgr "ROE" v)) ∧
    ((∀ (i : RoInput) (mgr : Store) (k : String), k ≠ "ROA" →
        Store.get ((ro_assets i mgr).2) k = Store.get mgr k) ∧
      (∀ (i : RoInput) (mgr mgr2 : Store),
        (ro_assets i mgr).1 = (ro_assets i mgr2).1) ∧
      (∀ (i : RoInput) (mgr : Store), (ro_assets i mgr).2 = mgr ∨
        ∃ v, (ro_assets i mgr).2 = deposit mgr "ROA" v)) ∧
    ((∀ (i : DivInput) (mgr : Store) (k : String),
        k ≠ "Average Dividend growth" →
        Store.get ((div_growth i mgr).2) k = Store.get mgr k) ∧
      (∀ (i : DivInput) (mgr mgr2 : Store),
        (div_growth i mgr).1 = (div_growth i mgr2).1) ∧
      (∀ (i : DivInput) (mgr : Store), (div_growth i mgr).2 = mgr ∨
        ∃ v, (div_growth i mgr).2 = deposit mgr "Average Dividend growth" v)) := by
  refine ⟨⟨?_, ?_, ?_⟩, ⟨?_, ?_, ?_⟩, ⟨?_, ?_, ?_⟩, ⟨?_, ?_, ?_⟩, ⟨?_, ?_, ?_⟩,
    ⟨?_, ?_, ?_⟩⟩
  · intro i mgr k hk
    unfold ep_ratio
    rcases epData i with e | ⟨s, p⟩
    · rfl
    · exact finishRatio_get_ne _ _ _ _ _ _ hk
  · intro i mgr mgr2
    unfold ep_ratio
    rcases epData i with e | ⟨s, p⟩
    · rfl
    · exact finishRatio_fst_indep _ _ _ _ _ _
  · intro i mgr
    unfold ep_ratio
    rcases epData i with e | ⟨s, p⟩
    · exact Or.inl rfl
    · exact Or.inr (finishRatio_snd _ _ _ _ _)
  · intro i mgr k hk
    unfold pb_ratio
    rcases pbData i with e | ⟨e0, s0, p0⟩
    · rfl
    · show Store.get ((if s0 = 0 then
          ((.ok none : Except PyErr (Option ℚ)), deposit mgr "P/B Ratio" .NA)
        else finishRatio "P/B Ratio" 2 p0 (e0 / s0) mgr).2) k = Store.get mgr k
      by_cases hs : s0 = 0
      · rw [if_pos hs]
        exact deposit_get_ne mgr _ k _ hk
      · rw [if_neg hs]
        exact finishRatio_get_ne _ _ _ _ _ _ hk
  · intro i mgr mgr2
    unfold pb_ratio
    rcases pbData i with e | ⟨e0, s0, p0⟩
    · rfl
    · show (if s0 = 0 then
          ((.ok none : Except PyErr (Option ℚ)), deposit mgr "P/B Ratio" .NA)
        else finishRatio "P/B Ratio" 2 p0 (e0 / s0) mgr).1 =
        (if s0 = 0 then
          ((.ok none : Except PyErr (Option ℚ)), deposit mgr2 "P/B Ratio" .NA)
        else finishRatio "P/B Ratio" 2 p0 (e0 / s0) mgr2).1
      by_cases hs : s0 = 0
      · rw [if_pos hs, if_pos hs]
      · rw [if_neg hs, if_neg hs]
        exact finishRatio_fst_indep _ _ _ _ _ _
  · intro i mgr
    unfold pb_ratio
    rcases pbData i with e | ⟨e0, s0, p0⟩
    · exact Or.inl rfl
    · show (if s0 = 0 then
          ((.ok none : Except PyErr (Option ℚ)), deposit mgr "P/B Ratio" .NA)
        else finishRatio "P/B Ratio" 2 p0 (e0 / s0) mgr).2 = mgr ∨
        ∃ v, (if s0 = 0 then
          ((.ok none : Except PyErr (Option ℚ)), deposit mgr "P/B Ratio" .NA)
        else finishRatio "P/B Ratio" 2 p0 (e0 / s0) mgr).2 =
          deposit mgr "P/B Ratio" v
      by_cases hs : s0 = 0
      · rw [if_pos hs]
        exact Or.inr ⟨.NA, rfl⟩
      · rw [if_neg hs]
        exact Or.inr (finishRatio_snd _ _ _ _ _)
  · intro i mgr k hk
    unfold current_ratio
    rcases crData i with e | ⟨a, l⟩
    · rfl
    · exact finishRatio_get_ne _ _ _ _ _ _ hk
  · intro i mgr mgr2
    unfold current_ratio
    rcases crData i with e | ⟨a, l⟩
    · rfl
    · exact finishRatio_fst_indep _ _ _ _ _ _
  · intro i mgr
    unfold current_ratio
    rcases crData i with e | ⟨a, l⟩
    · exact Or.inl rfl
    · exact Or.inr (finishRatio_snd _ _ _ _ _)
  · intro i mgr k hk
    unfold ro_equity
    rcases roeData i with e | ⟨e0, inc⟩
    · rfl
    · exact finishRatio_get_ne _ _ _ _ _ _ hk
  · intro i mgr mgr2
    unfold ro_equity
    rcases roeData i with e | ⟨e0, inc⟩
    · rfl
    · exact finishRatio_fst_indep _ _ _ _ _ _
  · intro i mgr
    unfold ro_equity
    rcases roeData i with e | ⟨e0, inc⟩
    · exact Or.inl rfl
    · exact Or.inr (finishRatio_snd _ _ _ _ _)
  · intro i mgr k hk
    unfold ro_assets
    rcases roaData i with e | ⟨a, inc⟩
    · rfl
    · exact finishRatio_get_ne _ _ _ _ _ _ hk
  · intro i mgr mgr2
    unfold ro_assets
    rcases roaData i with e | ⟨a, inc⟩
    · rfl
    · exact finishRatio_fst_indep _ _ _ _ _ _
  · intro i mgr
    unfold ro_assets
    rcases roaData i with e | ⟨a, inc⟩
    · exact Or.inl rfl
    · exact Or.inr (finishRatio_snd _ _ _ _ _)
  · intro i mgr k hk
    exact deposit_get_ne mgr _ k _ hk
  · intro i mgr mgr2
    rfl
  · intro i mgr
    exact Or.inr ⟨.real (divResult i.dividends), rfl⟩

theorem c8_store_discipline_witness :
    ("Other" ≠ "E/P Ratio" ∧
      Store.get ((ep_ratio exEp4 Store.empty).2) "Other" =
        Store.get Store.empty "Other") ∧
    ("Other" ≠ "P/B Ratio" ∧
      Store.get ((pb_ratio ⟨exBalancePb, 10, [20]⟩ Store.empty).2) "Other" =
        Store.get Store.empty "Other") ∧
    ("Other" ≠ "Current Ratio" ∧
      Store.get ((current_ratio ⟨exBalanceTable⟩ Store.empty).2) "Other" =
        Store.get Store.empty "Other") ∧
    ("Other" ≠ "ROE" ∧
      Store.get ((ro_equity ⟨exBalanceTable, exIncomeTable⟩ Store.empty).2)
          "Other" = Store.get Store.empty "Other") ∧
    ("Other" ≠ "ROA" ∧
      Store.get ((ro_assets ⟨exBalanceRoa, exIncomeTable⟩ Store.empty).2)
          "Other" = Store.get Store.empty "Other") ∧
    ("Other" ≠ "Average Dividend growth" ∧
      Store.get ((div_growth exDiv Store.empty).2) "Other" =
        Store.get Store.empty "Other") :=
  ⟨⟨by decide, c8_store_discipline.1.1 exEp4 Store.empty "Other" (by decide)⟩,
   ⟨by decide, c8_store_discipline.2.1.1 ⟨exBalancePb, 10, [20]⟩ Store.empty
      "Other" (by decide)⟩,
   ⟨by decide, c8_store_discipline.2.2.1.1 ⟨exBalanceTable⟩ Store.empty
      "Other" (by decide)⟩,
   ⟨by decide, c8_store_discipline.2.2.2.1.1 ⟨exBalanceTable, exIncomeTable⟩
      Store.empty "Other" (by decide)⟩,
   ⟨by decide, c8_store_discipline.2.2.2.2.1.1 ⟨exBalanceRoa, exIncomeTable⟩
      Store.empty "Other" (by decide)⟩,
   ⟨by decide, c8_store_discipline.2.2.2.2.2.1 exDiv Store.empty
      "Other" (by decide)⟩⟩

/-- C9: every non-missing deposited result is a fixed point of rounding at
its precision: 2 decimal places for the five ratio functions, 3 for
`div_growth` (whose returned value equals its deposited value). -/
theorem c9_results_are_round_fixed_points :
    (∀ (i : EpInput) (mgr : Store) (q : ℚ),
      (ep_ratio i mgr).1 = .ok (some q) → roundTo 2 q = q) ∧
    (∀ (i : PbInput) (mgr : Store) (q : ℚ),
      (pb_ratio i mgr).1 = .ok (some q) → roundTo 2 q = q) ∧
    (∀ (i : CrInput) (mgr : Store) (q : ℚ),
      (current_ratio i mgr).1 = .ok (some q) → roundTo 2 q = q) ∧
    (∀ (i : RoInput) (mgr : Store) (q : ℚ),
      (ro_equity i mgr).1 = .ok (some q) → roundTo 2 q = q) ∧
    (∀ (i : RoInput) (mgr : Store) (q : ℚ),
      (ro_assets i mgr).1 = .ok (some q) → roundTo 2 q = q) ∧
    (∀ (i : DivInput) (mgr : Store) (g : ℝ),
      (div_growth i mgr).1 = .ok (some g) → roundTo3R g = g) := by
  refine ⟨?_, ?_, ?_, ?_, ?_, ?_⟩
  · intro i mgr q h
    unfold ep_ratio at h
    rcases hd : epData i with e | ⟨s, p⟩ <;> rw [hd] at h
    · exact absurd (h : (Except.error e : Except PyErr (Option ℚ)) = _)
        (by simp)
    · rw [finishRatio_ok_some "E/P Ratio" 2 s p mgr q h]
      exact roundTo_idem 2 _
  · intro i mgr q h
    unfold pb_ratio at h
    rcases hd : pbData i with e | ⟨e0, s0, p0⟩ <;> rw [hd] at h
    · exact absurd (h : (Except.error e : Except PyErr (Option ℚ)) = _)
        (by simp)
    · have h2 : ((if s0 = 0 then
          ((.ok none : Except PyErr (Option ℚ)), deposit mgr "P/B Ratio" .NA)
        else finishRatio "P/B Ratio" 2 p0 (e0 / s0) mgr)).1 = .ok (some q) := h
      by_cases hs : s0 = 0
      · rw [if_pos hs] at h2
        exact absurd h2 (by simp)
      · rw [if_neg hs] at h2
        rw [finishRatio_ok_some "P/B Ratio" 2 p0 (e0 / s0) mgr q h2]
        exact roundTo_idem 2 _
  · intro i mgr q h
    unfold current_ratio at h
    rcases hd : crData i with e | ⟨a, l⟩ <;> rw [hd] at h
    · exact absurd (h : (Except.error e : Except PyErr (Option ℚ)) = _)
        (by simp)
    · rw [finishRatio_ok_some "Current Ratio" 2 a l mgr q h]
      exact roundTo_idem 2 _
  · intro i mgr q h
    unfold ro_equity at h
    rcases hd : roeData i with e | ⟨e0, inc⟩ <;> rw [hd] at h
    · exact absurd (h : (Except.error e : Except PyErr (Option ℚ)) = _)
        (by simp)
    · rw [finishRatio_ok_some "ROE" 2 inc e0 mgr q h]
      exact roundTo_idem 2 _
  · intro i mgr q h
    unfold ro_assets at h
    rcases hd : roaData i with e | ⟨a, inc⟩ <;> rw [hd] at h
    · exact absurd (h : (Except.error e : Except PyErr (Option ℚ)) = _)
        (by simp)
    · rw [finishRatio_ok_some "ROA" 2 inc a mgr q h]
      exact roundTo_idem 2 _
  · intro i mgr g h
    have h2 : (Except.ok (some (divResult i.dividends)) :
        Except PyErr (Option ℝ)) = .ok (some g) := h
    have h3 : divResult i.dividends = g := by simpa using h2
    rw [← h3]
    unfold divResult
    exact roundTo3R_idem _

theorem c9_round_fixed_points_witness :
    (ep_ratio exEp4 Store.empty).1 = .ok (some 2) ∧
    roundTo 2 (2:ℚ) = 2 ∧
    (div_growth exDiv Store.empty).1 = .ok (some ((1:ℝ)/10)) ∧
    roundTo3R ((1:ℝ)/10) = (1:ℝ)/10 :=
  ⟨by rw [exEp4_result],
   c9_results_are_round_fixed_points.1 exEp4 Store.empty 2
     (by rw [exEp4_result]),
   by rw [exDiv_result],
   c9_results_are_round_fixed_points.2.2.2.2.2 exDiv Store.empty ((1:ℝ)/10)
     (by rw [exDiv_result])⟩

end PortfolioStack
